import Mathlib

/-!
Verification development for the continuous-batching / speculative-decoding
inference runtime.  The definitions below are shallow embeddings of:

* `text_generation/causal_lm/cpp/speculative_decoding_lm.cpp` — the
  standalone speculative-decoding loop (acceptance of draft tokens,
  paged-attention sequence-length bookkeeping, hit-statistics histogram,
  vocabulary-size check);
* `src/cpp/src/generation_config.cpp` — `GenerationConfig::validate`;
* `src/cpp/src/generation_handle.cpp` — `GenerationHandleImpl`;
* the request scheduler / block manager.  The scheduler implementation
  itself is not part of the source tree (only its test suite is), so it is
  modelled from the specification, with every place where the
  specification's prose is under- or over-determined resolved in favour of
  the behaviour the in-tree test suite demands.  Those definitions carry a
  `Modelled from the spec:` doc comment.
-/

set_option maxRecDepth 100000

namespace OVGenAI

/-! ## Speculative decoding sample (speculative_decoding_lm.cpp) -/

/-- `SPECIAL_EOS_TOKEN` constant of the speculative sample (line 17). -/
def SPECIAL_EOS_TOKEN : Int := 2

/-- The stop condition of the acceptance loop body (line 421 of the sample):
the loop breaks at position `i` when the target token differs from the draft
token, equals the special EOS token, or the running sequence length would
reach `max_sequence_length`.  `m`/`d` are the target and draft tokens at the
position, `seqLen` the `seq_len` at entry to the outer iteration. -/
def acceptBreak (seqLen maxLen : Nat) (m d : Int) (i : Nat) : Prop :=
  m ≠ d ∨ m = SPECIAL_EOS_TOKEN ∨ seqLen + i + 1 ≥ maxLen

instance (seqLen maxLen : Nat) (m d : Int) (i : Nat) :
    Decidable (acceptBreak seqLen maxLen m d i) := by
  unfold acceptBreak; infer_instance

/-- The acceptance loop of the sample (lines 403, 414-428): `disagree_idx`
is initialised to `K - 1`, the loop sets `disagree_idx := i` at each
position and breaks on `acceptBreak`.  `go` consumes the zipped
(target, draft) token pairs carrying the loop counter; on an exhausted list
the last assigned index `i - 1` is returned. -/
def disagreeIdxGo (seqLen maxLen : Nat) : List (Int × Int) → Nat → Nat
  | [], i => i - 1
  | (m, d) :: rest, i =>
    if acceptBreak seqLen maxLen m d i then i
    else disagreeIdxGo seqLen maxLen rest (i + 1)

/-- `disagree_idx` computed by the acceptance loop over the K target tokens
`m_0 … m_{K-1}` and draft tokens `d_0 … d_{K-1}` (paired). -/
def disagreeIdx (seqLen maxLen : Nat) (pairs : List (Int × Int)) : Nat :=
  disagreeIdxGo seqLen maxLen pairs 0

/-- Number of tokens the outer iteration accepts: `disagree_idx + 1`
(line 433 advances `seq_len` by exactly this amount). -/
def acceptedCount (seqLen maxLen : Nat) (pairs : List (Int × Int)) : Nat :=
  disagreeIdx seqLen maxLen pairs + 1

/-- The claim's acceptance rule, following the spec's words: `j` is the
smallest index with `m_j ≠ d_j`, or `j = K` when every target token matches
its draft token; the accepted count is `j + 1`.  Used only to compare with
the behaviour of the code. -/
def specClaimJ (pairs : List (Int × Int)) : Nat :=
  match pairs.findIdx? (fun p => p.1 ≠ p.2) with
  | some j => j
  | none => pairs.length

/-- Accepted count according to the claim's formula. -/
def specClaimAccepted (pairs : List (Int × Int)) : Nat :=
  specClaimJ pairs + 1

/-- State of one `PagedAttentionManager` (lines 114-154): only the
`seq_len` counter matters for the sequence-length bookkeeping;
`update_tensors` adds the input length, `reduce_seq_len` subtracts. -/
structure PagedAttentionManager where
  seq_len : Int
deriving DecidableEq, Repr

/-- `PagedAttentionManager::update_tensors` (lines 123-140): the `seq_len`
grows by the length of `input_ids`. -/
def PagedAttentionManager.update_tensors (mg : PagedAttentionManager)
    (inputLen : Nat) : PagedAttentionManager :=
  { seq_len := mg.seq_len + inputLen }

/-- `PagedAttentionManager.reduce_seq_len` (lines 142-144). -/
def PagedAttentionManager.reduce_seq_len (mg : PagedAttentionManager)
    (val : Int) : PagedAttentionManager :=
  { seq_len := mg.seq_len - val }

/-- State threaded through the outer speculative-decoding loop:
the two paged-attention managers, the loop's own `seq_len`, and the
`hit_stat` histogram (`std::map<size_t, size_t>`, modelled as its total
function with default 0). -/
structure SpecLoopState where
  draftMgr : PagedAttentionManager
  mainMgr : PagedAttentionManager
  seqLen : Nat
  hitStat : Nat → Nat

/-- `hit_stat` update of lines 434-437: absent keys are inserted at 1,
present keys incremented — i.e. the count function is bumped at the key. -/
def bumpHitStat (h : Nat → Nat) (key : Nat) : Nat → Nat :=
  fun k => if k = key then h k + 1 else h k

/-- One outer iteration of the speculative loop (lines 358-444) given the
draft tokens `d` and the greedily-sampled target tokens `m` of this
iteration (both of length `K`): the draft manager is advanced by one slot
per draft step (K single-token `update_tensors` calls, lines 360-375), the
main manager by one K-token `update_tensors` call (line 395), the
`disagree_idx` is found, `seq_len` advances by `disagree_idx + 1`
(line 433), the histogram entry for `disagree_idx + 1` is bumped
(lines 434-437) and both managers are rolled back by
`K - disagree_idx - 1` (lines 439-440). -/
def specOuterIteration (maxLen : Nat) (m d : List Int)
    (st : SpecLoopState) : SpecLoopState :=
  let K := d.length
  let draftMgr := (List.range K).foldl (fun g _ => g.update_tensors 1) st.draftMgr
  let mainMgr := st.mainMgr.update_tensors K
  let j := disagreeIdx st.seqLen maxLen (m.zip d)
  { draftMgr := draftMgr.reduce_seq_len (K - j - 1 : Nat)
    mainMgr := mainMgr.reduce_seq_len (K - j - 1 : Nat)
    seqLen := st.seqLen + (j + 1)
    hitStat := bumpHitStat st.hitStat (j + 1) }

/-- The vocabulary-size check of lines 321-322: the last dimension of the
draft model's logits shape must equal the last dimension of the main
model's; on success the generation loop is entered (represented by the
continuation `loop` applied to the common vocabulary size), otherwise the
program fails with `OPENVINO_ASSERT` before entering the loop. -/
def vocabSizeGate {α : Type} (draftLogitsShape mainLogitsShape : List Nat)
    (loop : Nat → α) : Except String α :=
  let vocab_size := draftLogitsShape.getLastD 0
  if vocab_size = mainLogitsShape.getLastD 0 then
    Except.ok (loop vocab_size)
  else
    Except.error "vocab size should be the same for the both models"

/-! ## GenerationConfig (generation_config.cpp) -/

/-- `SIZE_MAX` of the C++ sources: `max_new_tokens` and `max_length`
default to it and it acts as "not specified". -/
def SIZE_MAX : Nat := 2 ^ 64 - 1

/-- The fields of `ov::genai::GenerationConfig` that
`GenerationConfig::validate` (lines 104-147) reads.  Floating-point fields
are modelled as rationals: `validate` only compares them against constants,
which is exact. -/
structure GenerationConfig where
  max_new_tokens : Nat := SIZE_MAX
  max_length : Nat := SIZE_MAX
  min_new_tokens : Nat := 0
  ignore_eos : Bool := false
  num_beam_groups : Nat := 1
  num_beams : Nat := 1
  diversity_penalty : Rat := 1
  length_penalty : Rat := 1
  num_return_sequences : Nat := 1
  no_repeat_ngram_size : Nat := SIZE_MAX
  temperature : Rat := 1
  top_p : Rat := 1
  top_k : Nat := SIZE_MAX
  do_sample : Bool := false
  repetition_penalty : Rat := 1
  presence_penalty : Rat := 0
  frequency_penalty : Rat := 0
  eos_token_id : Int := -1

/-- `GenerationConfig::is_beam_search` (line 96-98). -/
def GenerationConfig.is_beam_search (c : GenerationConfig) : Bool :=
  1 < c.num_beams

/-- One `OPENVINO_ASSERT` step: raise `msg` unless `cond` holds. -/
def ovAssert (cond : Bool) (msg : String) : Except String Unit :=
  if cond then Except.ok () else Except.error msg

/-- `GenerationConfig::validate` (lines 104-147): the asserts in source
order; the first failing one raises. -/
def GenerationConfig.validate (c : GenerationConfig) : Except String Unit := do
  ovAssert (!c.do_sample || c.num_beams == 1)
    "Beam search with sampling is not supported yet."
  ovAssert (c.num_return_sequences > 0)
    "num_return_sequences must be greater than 0"
  ovAssert (c.max_new_tokens > 0)
    "max_new_tokens must be greater than 0"
  ovAssert (c.min_new_tokens ≤ c.max_new_tokens)
    "min_new_tokens must be less or equal max_new_tokens"
  ovAssert (c.num_beams % c.num_beam_groups == 0)
    "number of beams should be divisible by number of groups"
  ovAssert (c.max_new_tokens != SIZE_MAX || c.max_length > 0)
    "max_length must be greater than 0 or max_new_tokens should be defined"
  ovAssert (!c.do_sample || c.top_k > 0)
    "top_k must be a strictly positive"
  ovAssert (!c.do_sample || (0 < c.top_p && c.top_p ≤ 1))
    "top_p must be a positive float greater than 0 and less than 1"
  ovAssert (!c.do_sample || 0 < c.temperature)
    "Temperature must be a strictly positive float"
  ovAssert (0 < c.repetition_penalty)
    "Repetition penalty must be a strictly positive float"
  ovAssert (!c.ignore_eos || c.max_new_tokens != SIZE_MAX || c.max_length != SIZE_MAX)
    "ignore_eos == true, in this case either max_new_tokens, or max_length should be defined."
  ovAssert (c.eos_token_id != -1 || c.max_new_tokens != SIZE_MAX || c.max_length != SIZE_MAX)
    "Either eos_token_id, or max_new_tokens, or max_length should be defined."
  if c.is_beam_search then
    ovAssert (c.no_repeat_ngram_size > 0) "no_repeat_ngram_size must be positive"
  else do
    ovAssert (-2 ≤ c.frequency_penalty && c.frequency_penalty ≤ 2)
      "frequency_penalty penalty must be in -2..2"
    ovAssert (-2 ≤ c.presence_penalty && c.presence_penalty ≤ 2)
      "presence_penalty penalty must be in -2..2"

/-- The conjunction of all conditions `validate` checks, as a single
Boolean predicate ("the configuration is valid"). -/
def GenerationConfig.isValidConfig (c : GenerationConfig) : Bool :=
  (!c.do_sample || c.num_beams == 1) &&
  (c.num_return_sequences > 0) &&
  (c.max_new_tokens > 0) &&
  (decide (c.min_new_tokens ≤ c.max_new_tokens)) &&
  (c.num_beams % c.num_beam_groups == 0) &&
  (c.max_new_tokens != SIZE_MAX || c.max_length > 0) &&
  (!c.do_sample || c.top_k > 0) &&
  (!c.do_sample || (decide (0 < c.top_p) && decide (c.top_p ≤ 1))) &&
  (!c.do_sample || decide (0 < c.temperature)) &&
  (decide (0 < c.repetition_penalty)) &&
  (!c.ignore_eos || c.max_new_tokens != SIZE_MAX || c.max_length != SIZE_MAX) &&
  (c.eos_token_id != -1 || c.max_new_tokens != SIZE_MAX || c.max_length != SIZE_MAX) &&
  (if c.is_beam_search then c.no_repeat_ngram_size > 0
   else (decide (-2 ≤ c.frequency_penalty) && decide (c.frequency_penalty ≤ 2))
     && (decide (-2 ≤ c.presence_penalty) && decide (c.presence_penalty ≤ 2)))

/-- Modelled from the spec: pipeline construction is not under `src/`; per
the spec ("`InvalidConfig` — validation at construction"; "Construction-time
errors halt the pipeline") the pipeline constructor validates the sampling
config and only yields a pipeline — on which generation steps can run — when
validation succeeds. -/
def pipelineConstruct (c : GenerationConfig) : Except String GenerationConfig := do
  c.validate
  pure c

/-! ## GenerationHandle (generation_handle.cpp) -/

/-- `ov::genai::GenerationStatus`. -/
inductive GenerationStatus where
  | RUNNING
  | FINISHED
  | IGNORED
  | DROPPED_BY_PIPELINE
  | DROPPED_BY_HANDLE
deriving DecidableEq, Repr

/-- One `GenerationOutput` (token ids of a sequence); the payload is
irrelevant to the handle logic. -/
structure GenerationOutput where
  generated_token_ids : List Int
deriving DecidableEq, Repr

/-- The generation stream a handle points at: its status and the queue of
per-iteration outputs not yet read.  (`generation_stream.hpp` is not under
`src/`; the queue view is modelled from the spec's description of per-group
ordered streams.) -/
structure GenerationStream where
  status : GenerationStatus
  pending : List (List (Nat × GenerationOutput))
deriving DecidableEq, Repr

/-- Modelled from the spec: `GenerationStream::drop` (declared in
`generation_stream.hpp`, not under `src/`) marks the stream dropped by its
handle; `GenerationHandleImpl::is_dropped` tests exactly this status. -/
def GenerationStream.drop (s : GenerationStream) : GenerationStream :=
  { s with status := GenerationStatus.DROPPED_BY_HANDLE }

/-- Modelled from the spec: `GenerationStream::can_read` — there are
outputs that have not been read yet. -/
def GenerationStream.can_read (s : GenerationStream) : Bool :=
  !s.pending.isEmpty

/-- `GenerationHandleImpl` holds its generation stream. -/
structure GenerationHandleImpl where
  m_generation_stream : GenerationStream
deriving DecidableEq, Repr

/-- `GenerationHandleImpl::get_status` (lines 15-17). -/
def GenerationHandleImpl.get_status (h : GenerationHandleImpl) : GenerationStatus :=
  h.m_generation_stream.status

/-- `GenerationHandleImpl::is_dropped` (lines 23-25). -/
def GenerationHandleImpl.is_dropped (h : GenerationHandleImpl) : Bool :=
  h.get_status = GenerationStatus.DROPPED_BY_HANDLE

/-- `GenerationHandleImpl::can_read` (lines 19-21). -/
def GenerationHandleImpl.can_read (h : GenerationHandleImpl) : Bool :=
  !h.is_dropped && h.m_generation_stream.can_read

/-- `GenerationHandleImpl::drop` (lines 27-29). -/
def GenerationHandleImpl.drop (h : GenerationHandleImpl) : GenerationHandleImpl :=
  { m_generation_stream := h.m_generation_stream.drop }

/-- The destructor `~GenerationHandleImpl` (lines 11-13): it drops the
generation stream. -/
def GenerationHandleImpl.destroy (h : GenerationHandleImpl) : GenerationHandleImpl :=
  h.drop

/-- `GenerationHandleImpl::back` (lines 31-34): asserts the handle is not
dropped, then returns the stream's most recent output. -/
def GenerationHandleImpl.back (h : GenerationHandleImpl) :
    Except String (List (Nat × GenerationOutput)) :=
  if h.is_dropped then
    Except.error "GenerationHandle cannot be used after it is dropped."
  else
    Except.ok (h.m_generation_stream.pending.getLastD [])

/-- `GenerationHandleImpl::read` (lines 36-39): asserts the handle is not
dropped, then pops the next output from the stream. -/
def GenerationHandleImpl.read (h : GenerationHandleImpl) :
    Except String (List (Nat × GenerationOutput) × GenerationHandleImpl) :=
  if h.is_dropped then
    Except.error "GenerationHandle cannot be used after it is dropped."
  else
    Except.ok (h.m_generation_stream.pending.headD [],
      { m_generation_stream :=
        { h.m_generation_stream with pending := h.m_generation_stream.pending.tail } })

/-- The drain loop of `GenerationHandleImpl::read_all` (lines 59-63),
bounded by `fuel` (the number of loop iterations the real program would
perform): while the generation is running or unread outputs remain, keep
calling `read`. -/
def readAllLoop : Nat → GenerationHandleImpl → List (List (Nat × GenerationOutput))
  | 0, _ => []
  | fuel + 1, h =>
    if h.get_status = GenerationStatus.RUNNING || h.can_read then
      let r := h.m_generation_stream.pending.headD []
      r :: readAllLoop fuel { m_generation_stream :=
        { h.m_generation_stream with pending := h.m_generation_stream.pending.tail } }
    else []

/-- `GenerationHandleImpl::read_all` (lines 54-68): asserts the handle is
not dropped, then drains the stream while the generation is running or
unread outputs remain. -/
def GenerationHandleImpl.read_all (fuel : Nat) (h : GenerationHandleImpl) :
    Except String (List (List (Nat × GenerationOutput))) :=
  if h.is_dropped then
    Except.error "GenerationHandle cannot be used after it is dropped."
  else
    Except.ok (readAllLoop fuel h)

/-! ## The request scheduler and block manager

The scheduler (`scheduler.hpp`), block manager and sequence-group classes
(`sequence_group.hpp`, `block_manager.hpp`) are not part of the source
tree; only their test suite (`src/unnamed/part_000`) and the pipeline
header are.  The model below is therefore built from the specification
(§3, §4.1-§4.4); wherever the specification's prose underdetermines or
contradicts the behaviour the in-tree tests assert (exact block indices,
need-driven partial preemption, full preemption of mid-prompt groups in
the vLLM regime), the tests are followed, since they are real code of the
repository.  Blocks are identified by their pool index; the free pool is a
FIFO queue initialised with `0, 1, …, num_kv_blocks - 1`. -/

/-- `ceilDiv n b = ⌈n / b⌉` — the number of KV blocks needed for `n`
token positions with block size `b`. -/
def ceilDiv (n b : Nat) : Nat := (n + b - 1) / b

/-- Modelled from the spec: `SchedulerConfig` (spec §4.4 configuration
table).  Defaults for budgets are large enough never to bind in the
modelled scenarios, matching the defaulted fields of the tests. -/
structure SchedulerConfig where
  block_size : Nat := 16
  num_kv_blocks : Nat := 0
  max_num_batched_tokens : Nat := 256
  max_num_seqs : Nat := 256
  dynamic_split_fuse : Bool := false
  enable_prefix_caching : Bool := false
deriving DecidableEq, Repr

/-- Modelled from the spec: one sequence (spec §3 Sequence): id, generated
token history, block table (list of pool indices), finished flag, and a
`freed` flag set by `Scheduler::free_sequence` once the scheduler has
released the block table. -/
structure ModelSeq where
  sid : Nat
  generated : List Nat
  table : List Nat
  finished : Bool
  freed : Bool
deriving DecidableEq, Repr

/-- Modelled from the spec: one sequence group (spec §3 SequenceGroup):
prompt tokens, child sequences, the `num_processed_tokens` counter
(KV entries materialised for the group — all siblings advance in
lockstep), a flag recording whether the group was ever scheduled, and the
transient per-step flag marking it preempted in the current step. -/
structure ModelGroup where
  prompt : List Nat
  seqs : List ModelSeq
  processed : Nat
  everSched : Bool
  preemptedNow : Bool
deriving DecidableEq, Repr

/-- Modelled from the spec: one prefix-cache record (spec §3
PrefixCacheIndex).  The spec keys cached blocks by a rolling content hash
combined with the parent block's hash, which identifies the whole token
prefix up to the block; the model uses that token prefix itself as the
(collision-free) key, together with the chain of block indices holding its
KV. -/
structure CacheEntry where
  toks : List Nat
  chain : List Nat
deriving DecidableEq, Repr

/-- Modelled from the spec: the scheduler + block-allocator state
(spec §4.1-§4.4): configuration, partial-preemption switch (second
constructor argument of `Scheduler` in the tests, default true), FIFO free
queue of block indices, per-block reference counts, the groups in
admission-priority order, and the prefix-cache index. -/
structure SchedulerState where
  cfg : SchedulerConfig
  partialAllowed : Bool
  freeQ : List Nat
  refCnt : List Nat
  groups : List ModelGroup
  cache : List CacheEntry
deriving DecidableEq, Repr

/-- A fresh scheduler: all blocks free, in index order. -/
def Scheduler.init (cfg : SchedulerConfig) (partialAllowed : Bool := true) :
    SchedulerState :=
  { cfg := cfg
    partialAllowed := partialAllowed
    freeQ := List.range cfg.num_kv_blocks
    refCnt := List.replicate cfg.num_kv_blocks 0
    groups := []
    cache := [] }

/-- Modelled from the spec: `BlockAllocator::allocate` (spec §4.1) — pop a
free block, set its ref count to 1. -/
def popBlock (st : SchedulerState) : Option (Nat × SchedulerState) :=
  match st.freeQ with
  | [] => none
  | b :: rest => some (b, { st with freeQ := rest, refCnt := st.refCnt.set b 1 })

/-- Allocate `k` blocks (or fail leaving nothing allocated). -/
def popBlocks : Nat → SchedulerState → Option (List Nat × SchedulerState)
  | 0, st => some ([], st)
  | k + 1, st =>
    match popBlock st with
    | none => none
    | some (b, st') =>
      match popBlocks k st' with
      | none => none
      | some (bs, st'') => some (b :: bs, st'')

/-- Modelled from the spec: `BlockAllocator::free` (spec §4.1) — decrement
the ref count; at zero the block returns to the free queue. -/
def freeBlock (st : SchedulerState) (b : Nat) : SchedulerState :=
  let r := st.refCnt.getD b 0
  if r ≤ 1 then
    { st with refCnt := st.refCnt.set b 0, freeQ := st.freeQ ++ [b] }
  else
    { st with refCnt := st.refCnt.set b (r - 1) }

/-- Free a list of blocks in order. -/
def freeBlockList (st : SchedulerState) (bs : List Nat) : SchedulerState :=
  bs.foldl freeBlock st

/-- Modelled from the spec: `BlockAllocator::fork` (spec §4.1) — increment
the ref count of every block of a forked table. -/
def refBlockList (st : SchedulerState) (bs : List Nat) : SchedulerState :=
  bs.foldl
    (fun s b => { s with refCnt := s.refCnt.set b (s.refCnt.getD b 0 + 1) }) st

/-- Truncate every live (non-freed) sequence's table to its first `keep`
blocks, releasing the dropped blocks to the allocator (in table order per
sequence).  Used by partial and full preemption. -/
def truncSeqs (keep : Nat) :
    List ModelSeq → SchedulerState → List ModelSeq × SchedulerState
  | [], st => ([], st)
  | s :: rest, st =>
    if s.freed then
      let r := truncSeqs keep rest st
      (s :: r.1, r.2)
    else
      let r := truncSeqs keep rest (freeBlockList st (s.table.drop keep))
      ({ s with table := s.table.take keep } :: r.1, r.2)

/-- Replace the group at position `gi`. -/
def setGroup (gi : Nat) (g : ModelGroup) (st : SchedulerState) :
    SchedulerState :=
  { st with groups := st.groups.set gi g }

/-- Does the group still hold any block? -/
def groupHasBlocks (g : ModelGroup) : Bool :=
  g.seqs.any (fun s => !s.table.isEmpty)

/-- Modelled from the spec: one block-granular rollback step of partial
preemption.  The test suite requires preemption to free only as many
trailing blocks as the requester needs, one block-boundary at a time
(`test_partial_preemption_beam_search` rolls a 12-token group back to 8,
then later to 4 — never directly to its prompt): `num_processed_tokens`
drops to the previous block boundary and every sibling releases its
trailing blocks beyond the boundary. -/
def reduceOnce (gi : Nat) (st : SchedulerState) : SchedulerState :=
  match st.groups.get? gi with
  | none => st
  | some g =>
    let B := st.cfg.block_size
    let p' := ((g.processed - 1) / B) * B
    let r := truncSeqs (ceilDiv p' B) g.seqs st
    setGroup gi { g with seqs := r.1, processed := p' } r.2

/-- Roll the group back block-boundary by block-boundary until the free
queue can satisfy `need` blocks (or nothing is left to roll back).
`fuel` bounds the loop (any value above `processed` is exact). -/
def reduceLoop (need gi : Nat) : Nat → SchedulerState → SchedulerState
  | 0, st => st
  | fuel + 1, st =>
    if st.freeQ.length ≥ need then st
    else
      match st.groups.get? gi with
      | none => st
      | some g =>
        if g.processed = 0 then st
        else reduceLoop need gi fuel (reduceOnce gi st)

/-- Fully preempt the group at `gi`: release every block of every live
sequence (in table order), reset `num_processed_tokens` to 0 and mark the
group preempted for this step. -/
def fullFree (gi : Nat) (st : SchedulerState) : SchedulerState :=
  match st.groups.get? gi with
  | none => st
  | some g =>
    let r := truncSeqs 0 g.seqs st
    setGroup gi
      { g with seqs := r.1, processed := 0, preemptedNow := true } r.2

/-- Mark the group at `gi` preempted for this step (without further block
changes). -/
def markPreempted (gi : Nat) (st : SchedulerState) : SchedulerState :=
  match st.groups.get? gi with
  | none => st
  | some g => setGroup gi { g with preemptedNow := true } st

/-- Modelled from the spec: preempt one victim group (spec §4.4
Preemption).  Without partial preemption every block is released.  With it
the group is rolled back only as far as the requester's need dictates;
afterwards, if nothing is left the preemption is full, and in the vLLM
regime (`dynamic_split_fuse = false`) a group left mid-prompt cannot be
resumed (the regime schedules whole prompts), so it is fully preempted —
exactly the regime split `test_partially_preempted_prompt` asserts. -/
def preemptFinish (gi : Nat) (st1 : SchedulerState) : SchedulerState :=
  match st1.groups.get? gi with
  | none => st1
  | some g1 =>
    if g1.processed = 0 then fullFree gi st1
    else if !st1.cfg.dynamic_split_fuse && g1.processed < g1.prompt.length then
      fullFree gi st1
    else markPreempted gi st1

def preemptOne (need gi : Nat) (st : SchedulerState) : SchedulerState :=
  if !st.partialAllowed then fullFree gi st
  else
    match st.groups.get? gi with
    | none => st
    | some g => preemptFinish gi (reduceLoop need gi (g.processed + 1) st)

/-- Modelled from the spec: the preemption scan (spec §4.4: "preempt the
most-recently-admitted RUNNING group first (LIFO by admission)").
`cands` is the list of victim group positions, lowest priority first; the
scan stops as soon as the free queue can satisfy `need`. -/
def preemptScan (need : Nat) : List Nat → SchedulerState → SchedulerState
  | [], st => st
  | gi :: rest, st =>
    if st.freeQ.length ≥ need then st
    else
      match st.groups.get? gi with
      | none => preemptScan need rest st
      | some g =>
        if groupHasBlocks g then preemptScan need rest (preemptOne need gi st)
        else preemptScan need rest st

/-- Is the sequence live (participating in scheduling)? -/
def seqLive (s : ModelSeq) : Bool := !s.finished && !s.freed

/-- Grow every live sequence's table to `target` blocks by allocating from
the free queue (failing if the pool runs dry). -/
def extendSeqs (target : Nat) :
    List ModelSeq → SchedulerState → Option (List ModelSeq × SchedulerState)
  | [], st => some ([], st)
  | s :: rest, st =>
    if seqLive s then
      match popBlocks (target - s.table.length) st with
      | none => none
      | some (bs, st') =>
        match extendSeqs target rest st' with
        | none => none
        | some (rest', st'') => some ({ s with table := s.table ++ bs } :: rest', st'')
    else
      match extendSeqs target rest st with
      | none => none
      | some (rest', st') => some (s :: rest', st')

/-- Blocks the group must allocate to cover `target` blocks per live
sequence. -/
def blocksNeeded (target : Nat) (seqs : List ModelSeq) : Nat :=
  (seqs.filter seqLive).foldl (fun a s => a + (target - s.table.length)) 0

/-- Accumulator of one scheduling step: the evolving state, the scheduled
group positions, the token and sequence tallies, and whether only
never-before-scheduled groups have been picked (drives `is_prompt`). -/
structure StepAcc where
  st : SchedulerState
  ids : List Nat
  total : Nat
  seqCount : Nat
  freshOnly : Bool

/-- Commit a prompt chunk of `n` tokens to group `g` (at position `i`,
with `live` live sequences): every live sequence's table is grown to cover
`processed + n` tokens and the tallies are updated.  On allocation failure
the step output is unchanged. -/
def schedulePromptChunk (i : Nat) (g : ModelGroup) (n live : Nat)
    (acc : StepAcc) : StepAcc :=
  match extendSeqs (ceilDiv (g.processed + n) acc.st.cfg.block_size)
      g.seqs acc.st with
  | none => acc
  | some r =>
    { st := setGroup i
        { g with seqs := r.1, processed := g.processed + n,
                 everSched := true } r.2
      ids := acc.ids ++ [i]
      total := acc.total + n
      seqCount := acc.seqCount + live
      freshOnly := acc.freshOnly && !g.everSched }

/-- Commit one generate slot per live sequence of the group at position
`i`, working on `st1` (the state after any preemption scan): every live
sequence's table is grown to cover `processed + 1` tokens.  On allocation
failure (pool still dry after preemption) the group is skipped. -/
def scheduleGenerate (i live : Nat) (st1 : SchedulerState) (acc : StepAcc) :
    StepAcc :=
  match st1.groups.get? i with
  | none => acc
  | some g1 =>
    match extendSeqs (ceilDiv (g1.processed + 1) st1.cfg.block_size)
        g1.seqs st1 with
    | none => { acc with st := st1 }
    | some r =>
      { st := setGroup i
          { g1 with seqs := r.1, processed := g1.processed + 1,
                    everSched := true } r.2
        ids := acc.ids ++ [i]
        total := acc.total + live
        seqCount := acc.seqCount + live
        freshOnly := false }

/-- Modelled from the spec: schedule the group at position `i` within the
current step (spec §4.4 regimes (a)/(b) merged over admission-priority
order, which coincides with both regimes' orders on the modelled
scenarios).  A group whose prompt is not fully processed receives a prompt
chunk — the whole remainder in the vLLM regime, a `T`-budget-limited chunk
under dynamic split-fuse — allocated without preemption (skipped when the
pool cannot cover it).  Otherwise every live sequence claims one generate
slot; a new block per sequence is needed exactly at block boundaries and
may trigger the preemption scan over lower-priority groups. -/
def stepGroup (i : Nat) (acc : StepAcc) : StepAcc :=
  match acc.st.groups.get? i with
  | none => acc
  | some g =>
    let st := acc.st
    let B := st.cfg.block_size
    let T := st.cfg.max_num_batched_tokens
    let S := st.cfg.max_num_seqs
    let live := (g.seqs.filter seqLive).length
    if g.preemptedNow || live == 0 then acc
    else if g.processed < g.prompt.length then
      -- prompt phase / prompt completion
      let want := g.prompt.length - g.processed
      let n := if st.cfg.dynamic_split_fuse then min want (T - acc.total) else want
      if n == 0 || acc.total + n > T || acc.seqCount + live > S then acc
      else if st.freeQ.length < blocksNeeded (ceilDiv (g.processed + n) B) g.seqs
      then acc
      else schedulePromptChunk i g n live acc
    else
      -- generate phase: one slot per live sequence
      if acc.total + live > T || acc.seqCount + live > S then acc
      else
        scheduleGenerate i live
          (if st.freeQ.length
              < blocksNeeded (ceilDiv (g.processed + 1) B) g.seqs then
            preemptScan (blocksNeeded (ceilDiv (g.processed + 1) B) g.seqs)
              (((List.range st.groups.length).filter (fun j => i < j)).reverse)
              st
          else st) acc

/-- The output record of one `Scheduler::schedule` call
(`m_scheduled_sequence_groups_ids`, `m_total_num_scheduled_tokens`,
`is_prompt`, and the per-sequence block tables of the step). -/
structure StepOut where
  ids : List Nat
  total : Nat
  is_prompt : Bool
  tables : List (Nat × List Nat)
deriving DecidableEq, Repr

/-- Clear the per-step preemption flags. -/
def clearPreemptFlags (st : SchedulerState) : SchedulerState :=
  { st with groups := st.groups.map (fun g => { g with preemptedNow := false }) }

/-- Block-table snapshot (sequence id → table) of the groups at the given
positions. -/
def snapshotTables (st : SchedulerState) (ids : List Nat) :
    List (Nat × List Nat) :=
  ids.foldl
    (fun a i =>
      match st.groups.get? i with
      | none => a
      | some g => a ++ (g.seqs.filter seqLive).map (fun s => (s.sid, s.table)))
    []

/-- Modelled from the spec: `Scheduler::schedule` (spec §4.4) — one
scheduling step over the admitted groups in priority order. -/
def scheduleStep (st : SchedulerState) : StepOut × SchedulerState :=
  let st0 := clearPreemptFlags st
  let acc := (List.range st0.groups.length).foldl (fun a i => stepGroup i a)
    { st := st0, ids := [], total := 0, seqCount := 0, freshOnly := true }
  ({ ids := acc.ids
     total := acc.total
     is_prompt := !st.cfg.dynamic_split_fuse && acc.freshOnly && !acc.ids.isEmpty
     tables := snapshotTables acc.st acc.ids },
   acc.st)

/-- Admit a group (at the back of the priority order) with a single fresh
sequence. -/
def addGroup (prompt : List Nat) (sid : Nat) (st : SchedulerState) :
    SchedulerState :=
  { st with groups := st.groups ++
      [{ prompt := prompt
         seqs := [{ sid := sid, generated := [], table := [], finished := false,
                    freed := false }]
         processed := 0
         everSched := false
         preemptedNow := false }] }

/-- Admit a group at the front of the priority order (the beam-search test
puts the greedy group first "to make it higher priority"). -/
def addGroupFront (prompt : List Nat) (sid : Nat) (st : SchedulerState) :
    SchedulerState :=
  { st with groups :=
      { prompt := prompt
        seqs := [{ sid := sid, generated := [], table := [], finished := false,
                   freed := false }]
        processed := 0
        everSched := false
        preemptedNow := false } :: st.groups }

/-- `Sequence::append_token` applied to every not-finished sequence of the
group at position `gi` (the tests' per-step sampler simulation). -/
def appendTokenAll (gi : Nat) (tok : Nat) (st : SchedulerState) :
    SchedulerState :=
  match st.groups.get? gi with
  | none => st
  | some g =>
    setGroup gi
      { g with seqs := g.seqs.map (fun s =>
          if s.finished then s else { s with generated := s.generated ++ [tok] }) }
      st

/-- `SequenceGroup::fork_sequence` + `Scheduler::fork_sequence`: clone the
sequence at position `srcIdx` of group `gi` under a new id; the table is
shared copy-on-write, so every block's ref count is incremented. -/
def forkSeq (gi srcIdx newSid : Nat) (st : SchedulerState) : SchedulerState :=
  match st.groups.get? gi with
  | none => st
  | some g =>
    match g.seqs.get? srcIdx with
    | none => st
    | some s =>
      let st' := refBlockList st s.table
      setGroup gi
        { g with seqs := g.seqs ++ [{ s with sid := newSid }] } st'

/-- `Sequence::set_status(FINISHED)` for the sequence with id `sid`. -/
def finishSeqById (sid : Nat) (st : SchedulerState) : SchedulerState :=
  { st with groups := st.groups.map (fun g =>
      { g with seqs := g.seqs.map (fun s =>
          if s.sid = sid then { s with finished := true } else s) }) }

/-- Modelled from the spec: `Scheduler::free_sequence(id)`.  Without
prefix caching the sequence's blocks are released to the allocator in
table order.  With prefix caching the blocks are retained in the prefix
index (spec §4.1 free): the sequence's materialised token prefix (its
first `num_processed_tokens` tokens) is recorded with its block chain. -/
def freeSequence (sid : Nat) (st : SchedulerState) : SchedulerState :=
  let rec go (gs : List ModelGroup) (st : SchedulerState) :
      List ModelGroup × SchedulerState :=
    match gs with
    | [] => ([], st)
    | g :: rest =>
      match g.seqs.findIdx? (fun s => s.sid == sid) with
      | some si =>
        match g.seqs.get? si with
        | none =>
          let (rest', st') := go rest st
          (g :: rest', st')
        | some s =>
          let st' :=
            if st.cfg.enable_prefix_caching then
              { st with cache := st.cache ++
                  [{ toks := (g.prompt ++ s.generated).take g.processed,
                     chain := s.table }] }
            else freeBlockList st s.table
          let s' : ModelSeq := { s with table := [], freed := true }
          let g' := { g with seqs := g.seqs.set si s' }
          let (rest', st'') := go rest st'
          (g' :: rest', st'')
      | none =>
        let (rest', st') := go rest st
        (g :: rest', st')
  let (gs', st') := go st.groups { st with groups := [] }
  { st' with groups := gs' }

/-- Remove the group at position `gi` (the pipeline dropping a finished
request). -/
def removeGroup (gi : Nat) (st : SchedulerState) : SchedulerState :=
  { st with groups := st.groups.eraseIdx gi }

/-- Find the best (longest) cached chain whose recorded token list is a
prefix of the prompt. -/
def restoreFind (prompt : List Nat) : List CacheEntry → Option CacheEntry
  | [] => none
  | e :: rest =>
    let r := restoreFind prompt rest
    if e.toks.isPrefixOf prompt then
      match r with
      | none => some e
      | some e' => if e'.toks.length < e.toks.length then some e else some e'
    else r

/-- Modelled from the spec: `Scheduler::restore_cached_blocks(group)`
(spec §4.4 Prefix caching).  The longest cached block chain matching a
prefix of the new prompt is re-attached and `num_processed_tokens`
advances over it.  The spec's prose restores only full blocks, but the
in-tree test `prefix_caching_test` requires every previously materialised
KV entry — including the trailing partially-filled block — to be restored
(its expected per-iteration scheduled-token counts are unreachable
otherwise), so the chain is restored up to its recorded token length,
capped so that at least one prompt token is always left to recompute. -/
def restoreCachedBlocks (gi : Nat) (st : SchedulerState) : SchedulerState :=
  if !st.cfg.enable_prefix_caching then st
  else
    match st.groups.get? gi with
    | none => st
    | some g =>
      match restoreFind g.prompt st.cache with
      | none => st
      | some e =>
        let restored := min e.toks.length (g.prompt.length - 1)
        let keep := ceilDiv restored st.cfg.block_size
        setGroup gi
          { g with processed := restored
                   seqs := g.seqs.map (fun s =>
                     if seqLive s then { s with table := e.chain.take keep } else s) }
          st

/-- `Scheduler::has_block_table(seq_id)`. -/
def hasBlockTable (sid : Nat) (st : SchedulerState) : Bool :=
  st.groups.any (fun g => g.seqs.any (fun s =>
    s.sid == sid && !s.freed && !s.table.isEmpty))

/-- `Scheduler::get_block_table(seq)`. -/
def getBlockTable (sid : Nat) (st : SchedulerState) : List Nat :=
  match st.groups.findSome? (fun g => g.seqs.findSome? (fun s =>
    if s.sid == sid then some s.table else none)) with
  | none => []
  | some t => t

/-- Per-group form of the length invariant: every live sequence's block
table covers exactly the group's processed tokens. -/
def GroupInv (B : Nat) (g : ModelGroup) : Prop :=
  ∀ s ∈ g.seqs, seqLive s = true →
    s.table.length = ceilDiv g.processed B

/-- The per-sequence length invariant of spec §8: for every live sequence
of every group, the block table covers exactly the processed tokens:
`ceil(num_processed_tokens / B) == len(block_table)`. -/
def SeqLenInv (st : SchedulerState) : Prop :=
  ∀ g ∈ st.groups, GroupInv st.cfg.block_size g

instance (B : Nat) (g : ModelGroup) : Decidable (GroupInv B g) := by
  unfold GroupInv
  infer_instance

instance (st : SchedulerState) : Decidable (SeqLenInv st) := by
  unfold SeqLenInv
  infer_instance

/-- Decidable (executable) form of `SeqLenInv`. -/
def seqLenInvB (st : SchedulerState) : Bool :=
  st.groups.all (fun g => g.seqs.all (fun s =>
    !seqLive s || s.table.length == ceilDiv g.processed st.cfg.block_size))

/-! ### Scenario S1 — basic scheduling, vLLM regime (`general_test`) -/

/-- The scheduler configuration of `general_test` / spec scenario S1:
`B=4, num_kv_blocks=6, T=32, S=5, dynamic_split_fuse=false`. -/
def s1Cfg : SchedulerConfig :=
  { block_size := 4, num_kv_blocks := 6, max_num_batched_tokens := 32,
    max_num_seqs := 5, dynamic_split_fuse := false,
    enable_prefix_caching := false }

/-- The 8-token prompt used by S1 (and several other scenarios). -/
def tokens8 : List Nat := [0, 1, 2, 3, 4, 5, 6, 7]

/-- S1 initial state: three groups with 8-token prompts, sequence ids
0, 1, 2. -/
def s1St0 : SchedulerState :=
  addGroup tokens8 2 (addGroup tokens8 1 (addGroup tokens8 0
    (Scheduler.init s1Cfg)))

/-- S1, first schedule call (prompt phase). -/
def s1Step1 : StepOut × SchedulerState := scheduleStep s1St0

/-- S1, second schedule call (generate phase; triggers full preemption of
the third group). -/
def s1Step2 : StepOut × SchedulerState := scheduleStep s1Step1.2

/-! ### Scenario S2 — partial preemption, vLLM regime
(`test_partial_preemption`) -/

/-- The 11-token prompt of group A in S2. -/
def tokens11 : List Nat := [0, 1, 2, 3, 4, 5, 6, 7, 8, 9, 10]

/-- S2 initial state: group A (11-token prompt, sequence id 0) and group B
(8-token prompt, sequence id 1) under the S1 configuration. -/
def s2St0 : SchedulerState :=
  addGroup tokens8 1 (addGroup tokens11 0 (Scheduler.init s1Cfg))

/-- S2, prompt step. -/
def s2Step1 : StepOut × SchedulerState := scheduleStep s2St0

/-- S2, first generate step (B grows to 3 blocks; all 6 blocks used). -/
def s2Step2 : StepOut × SchedulerState := scheduleStep s2Step1.2

/-- S2 state after the sampler appends one generated token to each group. -/
def s2StG : SchedulerState :=
  appendTokenAll 1 16 (appendTokenAll 0 16 s2Step2.2)

/-- S2, second generate step: B is partially preempted to its prompt-only
blocks and A takes the released block. -/
def s2Step3 : StepOut × SchedulerState := scheduleStep s2StG

/-- S2 state after group A finishes and is freed. -/
def s2StFree : SchedulerState :=
  removeGroup 0 (freeSequence 0 (finishSeqById 0 s2Step3.2))

/-- S2, resumption step: B is rescheduled with one recomputed token. -/
def s2Step4 : StepOut × SchedulerState := scheduleStep s2StFree

/-! ### Scenario S3 — partially preempted prompt
(`test_partially_preempted_prompt`, both regimes) -/

/-- The 12-token prompt of S3. -/
def tokens12 : List Nat := [0, 1, 2, 3, 4, 5, 6, 7, 8, 9, 10, 11]

/-- S3 configuration, parametrised by the batching regime. -/
def s3Cfg (dsf : Bool) : SchedulerConfig :=
  { block_size := 4, num_kv_blocks := 6, max_num_batched_tokens := 32,
    max_num_seqs := 5, dynamic_split_fuse := dsf,
    enable_prefix_caching := false }

/-- S3 initial state: two groups with 12-token prompts. -/
def s3St0 (dsf : Bool) : SchedulerState :=
  addGroup tokens12 1 (addGroup tokens12 0 (Scheduler.init (s3Cfg dsf)))

/-- S3, prompt step (uses all 6 blocks). -/
def s3Step1 (dsf : Bool) : StepOut × SchedulerState :=
  scheduleStep (s3St0 dsf)

/-- S3, generate step: group B is preempted — partially (2 blocks kept)
under dynamic split-fuse, fully in the vLLM regime. -/
def s3Step2 (dsf : Bool) : StepOut × SchedulerState :=
  scheduleStep (s3Step1 dsf).2

/-- S3 state after group A finishes and is freed. -/
def s3StFree (dsf : Bool) : SchedulerState :=
  removeGroup 0 (freeSequence 0 (finishSeqById 0 (s3Step2 dsf).2))

/-- S3, resumption step for group B. -/
def s3Step3 (dsf : Bool) : StepOut × SchedulerState :=
  scheduleStep (s3StFree dsf)

/-! ### Beam-search partial preemption
(`test_partial_preemption_beam_search`) -/

/-- Beam scenario configuration: `num_kv_blocks=10, B=4`, vLLM regime,
budgets defaulted (non-binding). -/
def beamCfg : SchedulerConfig :=
  { block_size := 4, num_kv_blocks := 10, max_num_batched_tokens := 256,
    max_num_seqs := 256, dynamic_split_fuse := false,
    enable_prefix_caching := false }

/-- The 4-token prompt of the beam scenario. -/
def tokens4 : List Nat := [0, 1, 2, 3]

/-- Run `n` schedule steps, appending one sampled token to every
not-finished sequence of the group at position `gi` after each step;
returns the per-step totals and invariant checks alongside the state. -/
def genLoop (gi tok : Nat) : Nat → SchedulerState →
    List (Nat × Bool) × SchedulerState
  | 0, st => ([], st)
  | n + 1, st =>
    let (o, st1) := scheduleStep st
    let st2 := appendTokenAll gi tok st1
    let (rest, st3) := genLoop gi tok n st2
    ((o.total, seqLenInvB st1) :: rest, st3)

/-- Beam scenario, stage 1: prompt step, one sampled token, two forks off
sequence 0, and four generate steps (the group then occupies 4 blocks). -/
def beamStage1 : SchedulerState :=
  let st := addGroup tokens4 0 (Scheduler.init beamCfg)
  let (_, st) := scheduleStep st
  let st := appendTokenAll 0 4 st
  let st := forkSeq 0 0 1 st
  let st := forkSeq 0 0 2 st
  (genLoop 0 7 4 st).2

/-- Beam scenario, stage 2: two more forks off sequence 0 and four more
generate steps (the group then occupies 9 blocks, `processed = 12`). -/
def beamStage2 : SchedulerState :=
  let st := forkSeq 0 0 3 beamStage1
  let st := forkSeq 0 0 4 st
  (genLoop 0 7 4 st).2

/-- Beam scenario, stage 3: a greedy group is admitted at higher priority
and its prompt is processed (all 10 blocks in use). -/
def beamStage3 : SchedulerState :=
  let st := addGroupFront tokens4 5 beamStage2
  let (_, st) := scheduleStep st
  appendTokenAll 0 9 st

/-- Beam scenario, stage 4: next greedy generate step — the beam group is
partially preempted, releasing 5 blocks. -/
def beamStage4 : SchedulerState :=
  let (_, st) := scheduleStep beamStage3
  appendTokenAll 0 9 st

/-- Beam scenario, stage 5: twenty more greedy generate steps, forcing a
second partial preemption of the beam group. -/
def beamStage5 : List (Nat × Bool) × SchedulerState :=
  genLoop 0 9 20 beamStage4

/-- Table lengths of the beam group's sequences (group position `gi`). -/
def beamTableLens (gi : Nat) (st : SchedulerState) : List Nat :=
  match st.groups.get? gi with
  | none => []
  | some g => g.seqs.map (fun s => s.table.length)

/-- `num_processed_tokens` of the group at position `gi`. -/
def groupProcessed (gi : Nat) (st : SchedulerState) : Nat :=
  match st.groups.get? gi with
  | none => 0
  | some g => g.processed

/-! ### Scenario S4 — prefix-cache reuse across chat turns
(`prefix_caching_test`) -/

/-- S4 configuration: `enable_prefix_caching=true, B=4, num_kv_blocks=100`,
vLLM regime. -/
def s4Cfg : SchedulerConfig :=
  { block_size := 4, num_kv_blocks := 100, max_num_batched_tokens := 32,
    max_num_seqs := 5, dynamic_split_fuse := false,
    enable_prefix_caching := true }

/-- One chat iteration of S4: admit a group over `history ++ prompt`,
restore cached blocks, schedule the prompt, sample one token, run ten
generate steps (sampling after each), then finish and free the sequence
and extend the history.  Returns the prompt-step token total, the
generate-step totals with invariant checks, the new history and the new
state. -/
def pcIter (sid : Nat) (hist : List Nat) (st : SchedulerState) :
    Nat × List (Nat × Bool) × List Nat × SchedulerState :=
  let toks := hist ++ tokens8
  let st := addGroup toks sid st
  let st := restoreCachedBlocks 0 st
  let (o1, st) := scheduleStep st
  let st := appendTokenAll 0 23 st
  let (gts, st) := genLoop 0 16 10 st
  let st := finishSeqById sid st
  let st := freeSequence sid st
  let gen :=
    match st.groups.get? 0 with
    | none => []
    | some g =>
      match g.seqs.get? 0 with
      | none => []
      | some s => s.generated
  let st := removeGroup 0 st
  (o1.total, gts, hist ++ tokens8 ++ gen, st)

/-- Run `n` chat iterations of S4, collecting the prompt-step totals and
the generate-step (total, invariant) pairs. -/
def pcRun : Nat → Nat → List Nat → SchedulerState →
    List Nat × List (List (Nat × Bool)) × List Nat × SchedulerState
  | 0, _, hist, st => ([], [], hist, st)
  | n + 1, sid, hist, st =>
    let (p, gts, hist', st') := pcIter sid hist st
    let (ps, gs, histF, stF) := pcRun n (sid + 1) hist' st'
    (p :: ps, gts :: gs, histF, stF)

/-- The full 10-iteration S4 run. -/
def pcResult : List Nat × List (List (Nat × Bool)) × List Nat ×
    SchedulerState :=
  pcRun 10 0 [] (Scheduler.init s4Cfg)

/-- S4 state and history after the first chat iteration only. -/
def pcAfter1 : Nat × List (Nat × Bool) × List Nat × SchedulerState :=
  pcIter 0 [] (Scheduler.init s4Cfg)

/-- The cached chain the second chat iteration restores. -/
def pcMatch1 : Option CacheEntry :=
  restoreFind (pcAfter1.2.2.1 ++ tokens8) pcAfter1.2.2.2.cache

/-! ## Supporting lemmas: speculative acceptance loop -/

/-- Characterisation of the acceptance loop at an arbitrary loop counter
`n`: the result `j` lies in `[n, n + |pairs|)`, no position before `j`
satisfies the stop condition, and either position `j` does or `j` is the
final position (the loop ran out). -/
theorem disagreeIdxGo_charact (seqLen maxLen : Nat) :
    ∀ (pairs : List (Int × Int)) (n : Nat), pairs ≠ [] →
      n ≤ disagreeIdxGo seqLen maxLen pairs n ∧
      disagreeIdxGo seqLen maxLen pairs n < n + pairs.length ∧
      (∀ i, n ≤ i → i < disagreeIdxGo seqLen maxLen pairs n →
        ¬ acceptBreak seqLen maxLen (pairs.getD (i - n) (0, 0)).1
            (pairs.getD (i - n) (0, 0)).2 i) ∧
      (acceptBreak seqLen maxLen
          (pairs.getD (disagreeIdxGo seqLen maxLen pairs n - n) (0, 0)).1
          (pairs.getD (disagreeIdxGo seqLen maxLen pairs n - n) (0, 0)).2
          (disagreeIdxGo seqLen maxLen pairs n) ∨
        disagreeIdxGo seqLen maxLen pairs n = n + pairs.length - 1)
  | [], _, h => absurd rfl h
  | (m, d) :: rest, n, _ => by
    by_cases hb : acceptBreak seqLen maxLen m d n
    · simp only [disagreeIdxGo, if_pos hb]
      refine ⟨Nat.le_refl n, by simp only [List.length_cons]; omega, ?_, ?_⟩
      · intro i hni hin; omega
      · left; simpa using hb
    · rcases Decidable.em (rest = []) with hr | hr
      · subst hr
        simp only [disagreeIdxGo, if_neg hb]
        refine ⟨Nat.le_refl n, by simp, ?_, ?_⟩
        · intro i hni hin; omega
        · right; simp
      · have IH := disagreeIdxGo_charact seqLen maxLen rest (n + 1) hr
        simp only [disagreeIdxGo, if_neg hb]
        obtain ⟨ih1, ih2, ih3, ih4⟩ := IH
        refine ⟨by omega, by simp only [List.length_cons]; omega, ?_, ?_⟩
        · intro i hni hij
          rcases Nat.eq_or_lt_of_le hni with heq | hlt
          · subst heq
            simpa using hb
          · have hsub : i - n = (i - (n + 1)) + 1 := by omega
            rw [hsub, List.getD_cons_succ]
            exact ih3 i (by omega) hij
        · have hsub : disagreeIdxGo seqLen maxLen rest (n + 1) - n
              = (disagreeIdxGo seqLen maxLen rest (n + 1) - (n + 1)) + 1 := by omega
          rcases ih4 with h4 | h4
          · left
            rw [hsub, List.getD_cons_succ]
            exact h4
          · right
            simp only [List.length_cons]
            omega

/-- Folding one-token `update_tensors` calls over any list advances the
manager's `seq_len` by the list length. -/
theorem foldl_update_tensors_one :
    ∀ (l : List Nat) (mg : PagedAttentionManager),
      (l.foldl (fun g _ => g.update_tensors 1) mg).seq_len
        = mg.seq_len + l.length
  | [], mg => by simp
  | a :: l, mg => by
    simp only [List.foldl_cons]
    rw [foldl_update_tensors_one l (mg.update_tensors 1)]
    simp only [PagedAttentionManager.update_tensors, List.length_cons]
    push_cast
    ring

/-- The `K` one-token `update_tensors` calls of the draft loop advance the
draft manager's `seq_len` by `K`. -/
theorem draft_update_tensors_total (mg : PagedAttentionManager) (K : Nat) :
    ((List.range K).foldl (fun g _ => g.update_tensors 1) mg).seq_len
      = mg.seq_len + K := by
  rw [foldl_update_tensors_one]
  simp

/-! ## Claim C1 -/

/-- C1 counterexample: with `K = 3`, draft tokens `5, 6, 7` and target
tokens `5, 6, 7` (full agreement, no EOS, far from the length limit), the
code accepts `K = 3` tokens, while the claim's rule (`j = K` on full
agreement, accepted count `j + 1`) demands `K + 1 = 4`. -/
theorem C1_counterexample :
    acceptedCount 0 1000 [((5 : Int), (5 : Int)), (6, 6), (7, 7)]
      ≠ specClaimAccepted [((5 : Int), (5 : Int)), (6, 6), (7, 7)] := by
  decide

/-- C1 (amended): for every outer iteration over `K ≥ 1` paired target and
draft tokens, the accepted token count (by which `seq_len` advances)
equals `j + 1`, where `j` is the smallest index at which the loop stops —
target token differs from draft token, target token is the EOS token, or
the length limit is hit — and `j = K - 1` (not `K`) when no stop occurs,
i.e. all `K` target tokens are accepted on full agreement; hence at least
one token is accepted per iteration. -/
theorem C1_accepted_count (seqLen maxLen : Nat) (pairs : List (Int × Int))
    (h : pairs ≠ []) :
    acceptedCount seqLen maxLen pairs
        = disagreeIdx seqLen maxLen pairs + 1 ∧
    1 ≤ acceptedCount seqLen maxLen pairs ∧
    disagreeIdx seqLen maxLen pairs < pairs.length ∧
    (∀ i, i < disagreeIdx seqLen maxLen pairs →
      ¬ acceptBreak seqLen maxLen (pairs.getD i (0, 0)).1
          (pairs.getD i (0, 0)).2 i) ∧
    (acceptBreak seqLen maxLen
        (pairs.getD (disagreeIdx seqLen maxLen pairs) (0, 0)).1
        (pairs.getD (disagreeIdx seqLen maxLen pairs) (0, 0)).2
        (disagreeIdx seqLen maxLen pairs) ∨
      disagreeIdx seqLen maxLen pairs = pairs.length - 1) := by
  obtain ⟨h1, h2, h3, h4⟩ := disagreeIdxGo_charact seqLen maxLen pairs 0 h
  refine ⟨rfl, Nat.le_add_left 1 _, ?_, ?_, ?_⟩
  · unfold disagreeIdx
    omega
  · intro i hi
    have := h3 i (Nat.zero_le i) hi
    simpa using this
  · rcases h4 with h4 | h4
    · left
      simpa using h4
    · right
      unfold disagreeIdx
      omega

/-- Witness for C1: at target tokens `4, 9, 7` against draft tokens
`4, 8, 7` (first disagreement at index 1) the iteration accepts 2
tokens. -/
theorem C1_accepted_count_witness :
    acceptedCount 0 1000 [((4 : Int), (4 : Int)), (9, 8), (7, 7)] = 2 ∧
    1 ≤ acceptedCount 0 1000 [((4 : Int), (4 : Int)), (9, 8), (7, 7)] :=
  ⟨by decide,
   (C1_accepted_count 0 1000 [((4 : Int), (4 : Int)), (9, 8), (7, 7)]
     (by decide)).2.1⟩

/-! ## Claim C2 -/

/-- C2: an outer iteration that accepts `j + 1` of the `K` candidate
tokens rolls both paged-attention managers back by exactly
`K - j - 1` trailing entries, leaving both models' sequence state at the
accepted prefix length `L + j + 1` (where `L` is the common length at
iteration entry), and bumps the `hit_stat` histogram entry for `j + 1` by
one while leaving every other entry unchanged. -/
theorem C2_rollback (maxLen : Nat) (m d : List Int) (st : SpecLoopState)
    (hlen : m.length = d.length) (hK : 1 ≤ d.length)
    (hdraft : st.draftMgr.seq_len = (st.seqLen : Int))
    (hmain : st.mainMgr.seq_len = (st.seqLen : Int)) :
    (specOuterIteration maxLen m d st).draftMgr.seq_len
        = (st.seqLen : Int) + (disagreeIdx st.seqLen maxLen (m.zip d) + 1) ∧
    (specOuterIteration maxLen m d st).mainMgr.seq_len
        = (st.seqLen : Int) + (disagreeIdx st.seqLen maxLen (m.zip d) + 1) ∧
    ((st.seqLen : Int) + d.length)
        - (specOuterIteration maxLen m d st).draftMgr.seq_len
        = ((d.length - disagreeIdx st.seqLen maxLen (m.zip d) - 1 : Nat) : Int) ∧
    (specOuterIteration maxLen m d st).seqLen
        = st.seqLen + (disagreeIdx st.seqLen maxLen (m.zip d) + 1) ∧
    (specOuterIteration maxLen m d st).hitStat
        (disagreeIdx st.seqLen maxLen (m.zip d) + 1)
      = st.hitStat (disagreeIdx st.seqLen maxLen (m.zip d) + 1) + 1 ∧
    (∀ k, k ≠ disagreeIdx st.seqLen maxLen (m.zip d) + 1 →
      (specOuterIteration maxLen m d st).hitStat k = st.hitStat k) := by
  have hzlen : (m.zip d).length = d.length := by
    rw [List.length_zip, hlen, Nat.min_self]
  have hzne : m.zip d ≠ [] := by
    intro hz
    rw [hz] at hzlen
    simp only [List.length_nil] at hzlen
    omega
  have hjlt : disagreeIdx st.seqLen maxLen (m.zip d) < d.length := by
    have := (disagreeIdxGo_charact st.seqLen maxLen (m.zip d) 0 hzne).2.1
    unfold disagreeIdx
    omega
  have hdraft' :
      ((List.range d.length).foldl (fun g _ => g.update_tensors 1)
        st.draftMgr).seq_len = (st.seqLen : Int) + d.length := by
    rw [draft_update_tensors_total, hdraft]
  have hmain' : (st.mainMgr.update_tensors d.length).seq_len
      = (st.seqLen : Int) + d.length := by
    simp [PagedAttentionManager.update_tensors, hmain]
  simp only [specOuterIteration, PagedAttentionManager.reduce_seq_len]
  refine ⟨?_, ?_, ?_, ?_, ?_, ?_⟩
  · rw [hdraft']
    omega
  · rw [hmain']
    omega
  · rw [hdraft']
    omega
  · trivial
  · simp [bumpHitStat]
  · intro k hk
    simp [bumpHitStat, hk]

/-- Witness for C2: concrete iteration with `K = 3`, `L = 10`,
disagreement at index 1 (accepting 2 tokens). -/
theorem C2_rollback_witness :
    (specOuterIteration 100 [1, 2, 3] [1, 5, 3]
        ⟨⟨10⟩, ⟨10⟩, 10, fun _ => 0⟩).seqLen
      = 10 + (disagreeIdx 10 100 ([(1 : Int), 2, 3].zip [(1 : Int), 5, 3]) + 1) :=
  (C2_rollback 100 [1, 2, 3] [1, 5, 3] ⟨⟨10⟩, ⟨10⟩, 10, fun _ => 0⟩
    (by decide) (by decide) rfl rfl).2.2.2.1

/-! ## Claim C8 -/

/-- C8: the speculative program enters its generation loop only when the
draft and main models' logits tensors have the same last dimension
(vocabulary size); on a mismatch it fails with the fatal
`OPENVINO_ASSERT` error before the loop. -/
theorem C8_vocab_gate {α : Type} (ds ms : List Nat) (loop : Nat → α) :
    (ds.getLastD 0 = ms.getLastD 0 →
      vocabSizeGate ds ms loop = Except.ok (loop (ds.getLastD 0))) ∧
    (ds.getLastD 0 ≠ ms.getLastD 0 →
      vocabSizeGate ds ms loop
        = Except.error "vocab size should be the same for the both models") := by
  unfold vocabSizeGate
  constructor <;> intro h
  · rw [if_pos h]
  · rw [if_neg h]

/-- Witness for C8: equal vocabulary sizes (32000) proceed into the loop;
unequal ones (32000 vs 151936) fail. -/
theorem C8_vocab_gate_witness :
    vocabSizeGate [1, 7, 32000] [1, 1, 32000] (fun v => v + 1)
        = Except.ok 32001 ∧
    vocabSizeGate [1, 7, 32000] [1, 1, 151936] (fun v => v + 1)
        = Except.error "vocab size should be the same for the both models" :=
  ⟨by
     have := (C8_vocab_gate [1, 7, 32000] [1, 1, 32000] (fun v => v + 1)).1
       (by decide)
     simpa using this,
   (C8_vocab_gate [1, 7, 32000] [1, 1, 151936] (fun v => v + 1)).2 (by decide)⟩

/-! ## Claim C10 -/

/-- C10: on a handle whose status is `DROPPED_BY_HANDLE`, `back`, `read`
and `read_all` all raise instead of returning data and `can_read` is
false; destroying any handle drops its generation stream, after which the
same holds — a request is never readable through a destroyed or dropped
handle. -/
theorem C10_dropped_handle (h hv : GenerationHandleImpl) (fuel : Nat)
    (hd : h.is_dropped = true) :
    h.can_read = false ∧
    h.back = Except.error "GenerationHandle cannot be used after it is dropped." ∧
    h.read = Except.error "GenerationHandle cannot be used after it is dropped." ∧
    h.read_all fuel
        = Except.error "GenerationHandle cannot be used after it is dropped." ∧
    hv.destroy.is_dropped = true ∧
    hv.destroy.can_read = false ∧
    hv.destroy.back
        = Except.error "GenerationHandle cannot be used after it is dropped." := by
  have hst : h.m_generation_stream.status = GenerationStatus.DROPPED_BY_HANDLE := by
    have hd' := hd
    simp only [GenerationHandleImpl.is_dropped, GenerationHandleImpl.get_status,
      decide_eq_true_eq] at hd'
    exact hd'
  refine ⟨?_, ?_, ?_, ?_, ?_, ?_, ?_⟩ <;>
    simp [GenerationHandleImpl.can_read, GenerationHandleImpl.back,
      GenerationHandleImpl.read, GenerationHandleImpl.read_all,
      GenerationHandleImpl.destroy, GenerationHandleImpl.drop,
      GenerationHandleImpl.is_dropped, GenerationStream.drop,
      GenerationHandleImpl.get_status, hst]

/-- A concrete dropped handle with unread outputs. -/
def droppedHandle : GenerationHandleImpl :=
  ⟨⟨GenerationStatus.DROPPED_BY_HANDLE, [[(0, ⟨[5, 6]⟩)]]⟩⟩

/-- Witness for C10 at a concrete dropped handle. -/
theorem C10_dropped_handle_witness : droppedHandle.can_read = false :=
  (C10_dropped_handle droppedHandle droppedHandle 3 (by decide)).1

/-! ## Supporting lemmas: the scheduler length invariant -/

theorem ceilDiv_zero (b : Nat) : ceilDiv 0 b = 0 := by
  unfold ceilDiv
  cases b with
  | zero => rfl
  | succ n =>
    apply Nat.div_eq_of_lt
    omega

theorem ceilDiv_mono {m n : Nat} (b : Nat) (h : m ≤ n) :
    ceilDiv m b ≤ ceilDiv n b := by
  unfold ceilDiv
  exact Nat.div_le_div_right (by omega)

theorem popBlock_shape (st : SchedulerState) (b : Nat) (st' : SchedulerState)
    (h : popBlock st = some (b, st')) :
    st'.groups = st.groups ∧ st'.cfg = st.cfg := by
  unfold popBlock at h
  split at h
  · exact absurd h (by simp)
  · simp only [Option.some.injEq, Prod.mk.injEq] at h
    rw [← h.2]
    exact ⟨rfl, rfl⟩

theorem popBlocks_shape :
    ∀ (k : Nat) (st : SchedulerState) (bs : List Nat) (st' : SchedulerState),
      popBlocks k st = some (bs, st') →
      bs.length = k ∧ st'.groups = st.groups ∧ st'.cfg = st.cfg
  | 0, st, bs, st', h => by
    unfold popBlocks at h
    simp only [Option.some.injEq, Prod.mk.injEq] at h
    rw [← h.1, ← h.2]
    exact ⟨rfl, rfl, rfl⟩
  | k + 1, st, bs, st', h => by
    unfold popBlocks at h
    split at h
    · exact absurd h (by simp)
    next b1 st1 hp =>
      split at h
      · exact absurd h (by simp)
      next bs1 st2 hps =>
        simp only [Option.some.injEq, Prod.mk.injEq] at h
        have h1 := popBlock_shape st b1 st1 hp
        have h2 := popBlocks_shape k st1 bs1 st2 hps
        refine ⟨?_, ?_, ?_⟩
        · rw [← h.1]
          simp [h2.1]
        · rw [← h.2, h2.2.1, h1.1]
        · rw [← h.2, h2.2.2, h1.2]

theorem freeBlock_shape (st : SchedulerState) (b : Nat) :
    (freeBlock st b).groups = st.groups ∧ (freeBlock st b).cfg = st.cfg := by
  unfold freeBlock
  dsimp only
  split <;> exact ⟨rfl, rfl⟩

theorem freeBlockList_shape :
    ∀ (bs : List Nat) (st : SchedulerState),
      (freeBlockList st bs).groups = st.groups ∧
      (freeBlockList st bs).cfg = st.cfg
  | [], _ => ⟨rfl, rfl⟩
  | b :: bs, st => by
    have h1 := freeBlock_shape st b
    have h2 := freeBlockList_shape bs (freeBlock st b)
    unfold freeBlockList at h2 ⊢
    rw [List.foldl_cons]
    exact ⟨h2.1.trans h1.1, h2.2.trans h1.2⟩

theorem truncSeqs_spec (keep : Nat) :
    ∀ (seqs : List ModelSeq) (st : SchedulerState),
      (truncSeqs keep seqs st).2.groups = st.groups ∧
      (truncSeqs keep seqs st).2.cfg = st.cfg ∧
      (truncSeqs keep seqs st).1 = seqs.map (fun s =>
        if s.freed then s else { s with table := s.table.take keep })
  | [], _ => ⟨rfl, rfl, rfl⟩
  | s :: rest, st => by
    by_cases hf : s.freed = true
    · have IH := truncSeqs_spec keep rest st
      simp only [truncSeqs, if_pos hf, List.map_cons]
      exact ⟨IH.1, IH.2.1, by rw [IH.2.2]⟩
    · have hfl := freeBlockList_shape (s.table.drop keep) st
      have IH := truncSeqs_spec keep rest (freeBlockList st (s.table.drop keep))
      simp only [truncSeqs, if_neg hf, List.map_cons]
      exact ⟨IH.1.trans hfl.1, IH.2.1.trans hfl.2, by rw [IH.2.2]⟩

/-- Invariance of `SeqLenInv` under state changes that keep the groups and
configuration. -/
theorem SeqLenInv_congr (st st' : SchedulerState) (hg : st'.groups = st.groups)
    (hc : st'.cfg = st.cfg) (h : SeqLenInv st) : SeqLenInv st' := by
  intro g hm
  rw [hc]
  exact h g (hg ▸ hm)

/-- Truncating all live tables to `ceilDiv p' B` blocks while dropping the
processed count from `p` to `p' ≤ p` re-establishes the per-sequence
length equation. -/
theorem GroupInv_of_trunc (B p p' keep : Nat) (seqs : List ModelSeq)
    (hg : ∀ s ∈ seqs, seqLive s = true → s.table.length = ceilDiv p B)
    (hk : keep = ceilDiv p' B) (hle : p' ≤ p) :
    ∀ s' ∈ seqs.map (fun s =>
        if s.freed then s else { s with table := s.table.take keep }),
      seqLive s' = true → s'.table.length = ceilDiv p' B := by
  intro s' hs' hlive
  obtain ⟨s, hs, heq⟩ := List.mem_map.mp hs'
  by_cases hf : s.freed = true
  · rw [if_pos hf] at heq
    subst heq
    unfold seqLive at hlive
    simp [hf] at hlive
  · rw [if_neg hf] at heq
    subst heq
    have hlive' : seqLive s = true := by
      unfold seqLive at hlive ⊢
      simpa using hlive
    have hlen := hg s hs hlive'
    simp only [List.length_take, hlen, hk]
    exact Nat.min_eq_left (ceilDiv_mono B hle)

theorem SeqLenInv_setGroup (st : SchedulerState) (gi : Nat) (g' : ModelGroup)
    (h : SeqLenInv st) (hg : GroupInv st.cfg.block_size g') :
    SeqLenInv (setGroup gi g' st) := by
  intro g hm
  simp only [setGroup] at hm
  rcases List.mem_or_eq_of_mem_set hm with hmem | heq
  · exact h g hmem
  · subst heq
    exact hg

theorem reduceOnce_inv (gi : Nat) (st : SchedulerState) (h : SeqLenInv st) :
    SeqLenInv (reduceOnce gi st) ∧ (reduceOnce gi st).cfg = st.cfg := by
  unfold reduceOnce
  cases hgi : st.groups.get? gi with
  | none => exact ⟨h, rfl⟩
  | some g =>
    have hmem : g ∈ st.groups := List.get?_mem hgi
    have hle : ((g.processed - 1) / st.cfg.block_size) * st.cfg.block_size
        ≤ g.processed :=
      Nat.le_trans (Nat.div_mul_le_self _ _) (Nat.sub_le _ _)
    have hts := truncSeqs_spec
      (ceilDiv (((g.processed - 1) / st.cfg.block_size) * st.cfg.block_size)
        st.cfg.block_size) g.seqs st
    have hinv2 : SeqLenInv (truncSeqs
        (ceilDiv (((g.processed - 1) / st.cfg.block_size) * st.cfg.block_size)
          st.cfg.block_size) g.seqs st).2 :=
      SeqLenInv_congr st _ hts.1 hts.2.1 h
    constructor
    · apply SeqLenInv_setGroup _ _ _ hinv2
      rw [hts.2.1]
      intro s' hs' hlive
      rw [hts.2.2] at hs'
      exact GroupInv_of_trunc st.cfg.block_size g.processed _ _ g.seqs
        (h g hmem) rfl hle s' hs' hlive
    · simpa [setGroup] using hts.2.1

theorem reduceLoop_inv (need gi : Nat) :
    ∀ (fuel : Nat) (st : SchedulerState), SeqLenInv st →
      SeqLenInv (reduceLoop need gi fuel st) ∧
      (reduceLoop need gi fuel st).cfg = st.cfg
  | 0, st, h => ⟨h, rfl⟩
  | fuel + 1, st, h => by
    unfold reduceLoop
    split
    · exact ⟨h, rfl⟩
    · split
      · exact ⟨h, rfl⟩
      · split
        · exact ⟨h, rfl⟩
        · have h1 := reduceOnce_inv gi st h
          have h2 := reduceLoop_inv need gi fuel (reduceOnce gi st) h1.1
          exact ⟨h2.1, h2.2.trans h1.2⟩

theorem fullFree_inv (gi : Nat) (st : SchedulerState) (h : SeqLenInv st) :
    SeqLenInv (fullFree gi st) ∧ (fullFree gi st).cfg = st.cfg := by
  unfold fullFree
  cases hgi : st.groups.get? gi with
  | none => exact ⟨h, rfl⟩
  | some g =>
    have hmem : g ∈ st.groups := List.get?_mem hgi
    have hts := truncSeqs_spec 0 g.seqs st
    have hinv2 : SeqLenInv (truncSeqs 0 g.seqs st).2 :=
      SeqLenInv_congr st _ hts.1 hts.2.1 h
    constructor
    · apply SeqLenInv_setGroup _ _ _ hinv2
      rw [hts.2.1]
      intro s' hs' hlive
      rw [hts.2.2] at hs'
      have hz : (0 : Nat) = ceilDiv 0 st.cfg.block_size :=
        (ceilDiv_zero st.cfg.block_size).symm
      exact GroupInv_of_trunc st.cfg.block_size g.processed 0 0 g.seqs
        (h g hmem) hz (Nat.zero_le _) s' hs' hlive
    · simpa [setGroup] using hts.2.1

theorem markPreempted_inv (gi : Nat) (st : SchedulerState) (h : SeqLenInv st) :
    SeqLenInv (markPreempted gi st) ∧ (markPreempted gi st).cfg = st.cfg := by
  unfold markPreempted
  cases hgi : st.groups.get? gi with
  | none => exact ⟨h, rfl⟩
  | some g =>
    have hmem : g ∈ st.groups := List.get?_mem hgi
    refine ⟨SeqLenInv_setGroup _ _ _ h ?_, rfl⟩
    exact h g hmem

theorem preemptFinish_inv (gi : Nat) (st1 : SchedulerState)
    (h : SeqLenInv st1) :
    SeqLenInv (preemptFinish gi st1) ∧ (preemptFinish gi st1).cfg = st1.cfg := by
  unfold preemptFinish
  split
  · exact ⟨h, rfl⟩
  · split
    · exact fullFree_inv gi st1 h
    · split
      · exact fullFree_inv gi st1 h
      · exact markPreempted_inv gi st1 h

theorem preemptOne_inv (need gi : Nat) (st : SchedulerState)
    (h : SeqLenInv st) :
    SeqLenInv (preemptOne need gi st) ∧ (preemptOne need gi st).cfg = st.cfg := by
  unfold preemptOne
  split
  · exact fullFree_inv gi st h
  · split
    · exact ⟨h, rfl⟩
    · next g hg =>
      have h1 := reduceLoop_inv need gi (g.processed + 1) st h
      have h2 := preemptFinish_inv gi _ h1.1
      exact ⟨h2.1, h2.2.trans h1.2⟩

theorem preemptScan_inv (need : Nat) :
    ∀ (cands : List Nat) (st : SchedulerState), SeqLenInv st →
      SeqLenInv (preemptScan need cands st) ∧
      (preemptScan need cands st).cfg = st.cfg
  | [], _, h => ⟨h, rfl⟩
  | gi :: rest, st, h => by
    unfold preemptScan
    split
    · exact ⟨h, rfl⟩
    · split
      · exact preemptScan_inv need rest st h
      · split
        · have h1 := preemptOne_inv need gi st h
          have h2 := preemptScan_inv need rest (preemptOne need gi st) h1.1
          exact ⟨h2.1, h2.2.trans h1.2⟩
        · exact preemptScan_inv need rest st h

theorem extendSeqs_inv (target : Nat) :
    ∀ (seqs : List ModelSeq) (st : SchedulerState) (seqs' : List ModelSeq)
      (st' : SchedulerState),
      extendSeqs target seqs st = some (seqs', st') →
      (∀ s ∈ seqs, seqLive s = true → s.table.length ≤ target) →
      st'.groups = st.groups ∧ st'.cfg = st.cfg ∧
      (∀ s' ∈ seqs', seqLive s' = true → s'.table.length = target)
  | [], st, seqs', st', h, _ => by
    unfold extendSeqs at h
    simp only [Option.some.injEq, Prod.mk.injEq] at h
    rw [← h.1, ← h.2]
    exact ⟨rfl, rfl, by intro s' hs'; exact absurd hs' (List.not_mem_nil s')⟩
  | s :: rest, st, seqs', st', h, hbound => by
    unfold extendSeqs at h
    have hrest : ∀ s ∈ rest, seqLive s = true → s.table.length ≤ target :=
      fun s hs hl => hbound s (List.mem_cons_of_mem _ hs) hl
    by_cases hlive : seqLive s = true
    · rw [if_pos hlive] at h
      split at h
      · exact absurd h (by simp)
      next bs st1 hp =>
        split at h
        · exact absurd h (by simp)
        next rest' st2 he =>
          simp only [Option.some.injEq, Prod.mk.injEq] at h
          have hpb := popBlocks_shape _ st bs st1 hp
          have hie := extendSeqs_inv target rest st1 rest' st2 he hrest
          refine ⟨by rw [← h.2, hie.1, hpb.2.1],
            by rw [← h.2, hie.2.1, hpb.2.2], ?_⟩
          intro s' hs' hl'
          rw [← h.1] at hs'
          rcases List.mem_cons.mp hs' with heq | hmem
          · subst heq
            have hl : seqLive s = true := by
              unfold seqLive at hl' ⊢
              simpa using hl'
            have hb := hbound s (List.mem_cons_self s rest) hl
            simp only [List.length_append, hpb.1]
            omega
          · exact hie.2.2 s' hmem hl'
    · rw [if_neg hlive] at h
      split at h
      · exact absurd h (by simp)
      next rest' st2 he =>
        simp only [Option.some.injEq, Prod.mk.injEq] at h
        have hie := extendSeqs_inv target rest st rest' st2 he hrest
        refine ⟨by rw [← h.2, hie.1], by rw [← h.2, hie.2.1], ?_⟩
        intro s' hs' hl'
        rw [← h.1] at hs'
        rcases List.mem_cons.mp hs' with heq | hmem
        · subst heq
          exact absurd hl' hlive
        · exact hie.2.2 s' hmem hl'

theorem schedulePromptChunk_inv (i : Nat) (g : ModelGroup) (n live : Nat)
    (acc : StepAcc) (h : SeqLenInv acc.st) (hg : g ∈ acc.st.groups) :
    SeqLenInv (schedulePromptChunk i g n live acc).st ∧
    (schedulePromptChunk i g n live acc).st.cfg = acc.st.cfg := by
  unfold schedulePromptChunk
  split
  · exact ⟨h, rfl⟩
  next r he =>
    have hbound : ∀ s ∈ g.seqs, seqLive s = true →
        s.table.length ≤ ceilDiv (g.processed + n) acc.st.cfg.block_size := by
      intro s hs hl
      rw [h g hg s hs hl]
      exact ceilDiv_mono _ (Nat.le_add_right _ _)
    have hie := extendSeqs_inv _ g.seqs acc.st r.1 r.2 he hbound
    have hinv2 : SeqLenInv r.2 := SeqLenInv_congr acc.st r.2 hie.1 hie.2.1 h
    constructor
    · apply SeqLenInv_setGroup _ _ _ hinv2
      rw [hie.2.1]
      intro s' hs' hl'
      exact hie.2.2 s' hs' hl'
    · simpa [setGroup] using hie.2.1

theorem scheduleGenerate_inv (i live : Nat) (st1 : SchedulerState)
    (acc : StepAcc) (h : SeqLenInv acc.st) (h1 : SeqLenInv st1)
    (hcfg : st1.cfg = acc.st.cfg) :
    SeqLenInv (scheduleGenerate i live st1 acc).st ∧
    (scheduleGenerate i live st1 acc).st.cfg = acc.st.cfg := by
  unfold scheduleGenerate
  split
  · exact ⟨h, rfl⟩
  next g1 hg1 =>
    split
    · exact ⟨h1, hcfg⟩
    next r he =>
      have hg1mem : g1 ∈ st1.groups := List.get?_mem hg1
      have hbound : ∀ s ∈ g1.seqs, seqLive s = true →
          s.table.length ≤ ceilDiv (g1.processed + 1) st1.cfg.block_size := by
        intro s hs hl
        rw [h1 g1 hg1mem s hs hl]
        exact ceilDiv_mono _ (Nat.le_add_right _ _)
      have hie := extendSeqs_inv _ g1.seqs st1 r.1 r.2 he hbound
      have hinv2 : SeqLenInv r.2 := SeqLenInv_congr st1 r.2 hie.1 hie.2.1 h1
      constructor
      · apply SeqLenInv_setGroup _ _ _ hinv2
        rw [hie.2.1]
        intro s' hs' hl'
        exact hie.2.2 s' hs' hl'
      · have : (setGroup i
            { g1 with seqs := r.1, processed := g1.processed + 1,
                      everSched := true } r.2).cfg = r.2.cfg := rfl
        rw [this, hie.2.1, hcfg]

theorem stepGroup_inv (i : Nat) (acc : StepAcc) (h : SeqLenInv acc.st) :
    SeqLenInv (stepGroup i acc).st ∧ (stepGroup i acc).st.cfg = acc.st.cfg := by
  unfold stepGroup
  split
  · exact ⟨h, rfl⟩
  next g hg =>
    dsimp only
    split
    · exact ⟨h, rfl⟩
    · split
      · split
        · split
          · exact ⟨h, rfl⟩
          · split
            · exact ⟨h, rfl⟩
            · exact schedulePromptChunk_inv i g _ _ acc h (List.get?_mem hg)
        · split
          · exact ⟨h, rfl⟩
          · split
            · exact ⟨h, rfl⟩
            · exact schedulePromptChunk_inv i g _ _ acc h (List.get?_mem hg)
      · split
        · exact ⟨h, rfl⟩
        · split
          · have hscan := preemptScan_inv
              (blocksNeeded (ceilDiv (g.processed + 1) acc.st.cfg.block_size)
                g.seqs)
              (((List.range acc.st.groups.length).filter
                (fun j => i < j)).reverse) acc.st h
            exact scheduleGenerate_inv i _ _ acc h hscan.1 hscan.2
          · exact scheduleGenerate_inv i _ _ acc h h rfl

theorem foldStep_inv :
    ∀ (l : List Nat) (acc : StepAcc), SeqLenInv acc.st →
      SeqLenInv (l.foldl (fun a i => stepGroup i a) acc).st
  | [], _, h => h
  | i :: l, acc, h => by
    rw [List.foldl_cons]
    exact foldStep_inv l (stepGroup i acc) (stepGroup_inv i acc h).1

theorem clearPreemptFlags_inv (st : SchedulerState) (h : SeqLenInv st) :
    SeqLenInv (clearPreemptFlags st) := by
  intro g hm
  simp only [clearPreemptFlags, List.mem_map] at hm
  obtain ⟨g0, hg0, heq⟩ := hm
  subst heq
  exact h g0 hg0

/-- The per-step preservation of the spec §8 length invariant: one
`Scheduler::schedule` call keeps `ceil(num_processed_tokens / B) ==
len(block_table)` for every live sequence of every group. -/
theorem scheduleStep_inv (st : SchedulerState) (h : SeqLenInv st) :
    SeqLenInv (scheduleStep st).2 := by
  unfold scheduleStep
  exact foldStep_inv _ _ (clearPreemptFlags_inv st h)

/-! ## Claim C9 -/

theorem ovAssert_bind {α : Type} (b : Bool) (msg : String)
    (k : Unit → Except String α) :
    (ovAssert b msg >>= k) = if b then k () else Except.error msg := by
  cases b <;> rfl

theorem bind_ok_unit {α : Type} (k : Unit → Except String α) :
    ((Except.ok () : Except String Unit) >>= k) = k () := rfl

theorem bind_error_unit {α : Type} (e : String) (k : Unit → Except String α) :
    ((Except.error e : Except String Unit) >>= k) = Except.error e := rfl

set_option maxHeartbeats 1000000 in
/-- `validate` returns normally exactly when every checked condition
holds. -/
theorem validate_ok_iff (c : GenerationConfig) :
    c.validate = Except.ok () ↔ c.isValidConfig = true := by
  unfold GenerationConfig.validate GenerationConfig.isValidConfig
  simp only [ovAssert_bind, ovAssert]
  by_cases hb1 : (c.do_sample = false ∨ c.num_beams = 1)
  case neg => simp [bind_ok_unit, bind_error_unit, hb1]
  by_cases hb2 : 0 < c.num_return_sequences
  case neg => simp [bind_ok_unit, bind_error_unit, hb1, hb2]
  by_cases hb3 : 0 < c.max_new_tokens
  case neg => simp [bind_ok_unit, bind_error_unit, hb1, hb2, hb3]
  by_cases hb4 : c.min_new_tokens ≤ c.max_new_tokens
  case neg => simp [bind_ok_unit, bind_error_unit, hb1, hb2, hb3, hb4]
  by_cases hb5 : c.num_beams % c.num_beam_groups = 0
  case neg => simp [bind_ok_unit, bind_error_unit, hb1, hb2, hb3, hb4, hb5]
  by_cases hb6 : (¬c.max_new_tokens = SIZE_MAX ∨ 0 < c.max_length)
  case neg => simp [bind_ok_unit, bind_error_unit, hb1, hb2, hb3, hb4, hb5, hb6]
  by_cases hb7 : (c.do_sample = false ∨ 0 < c.top_k)
  case neg =>
    simp [bind_ok_unit, bind_error_unit, hb1, hb2, hb3, hb4, hb5, hb6, hb7]
  by_cases hb8 : (c.do_sample = false ∨ (0 < c.top_p ∧ c.top_p ≤ 1))
  case neg =>
    simp [bind_ok_unit, bind_error_unit, hb1, hb2, hb3, hb4, hb5, hb6, hb7, hb8]
  by_cases hb9 : (c.do_sample = false ∨ 0 < c.temperature)
  case neg =>
    simp [bind_ok_unit, bind_error_unit, hb1, hb2, hb3, hb4, hb5, hb6, hb7,
      hb8, hb9]
  by_cases hb10 : 0 < c.repetition_penalty
  case neg =>
    simp [bind_ok_unit, bind_error_unit, hb1, hb2, hb3, hb4, hb5, hb6, hb7,
      hb8, hb9, hb10]
  by_cases hb11 : ((c.ignore_eos = false ∨ ¬c.max_new_tokens = SIZE_MAX)
      ∨ ¬c.max_length = SIZE_MAX)
  case neg =>
    simp [bind_ok_unit, bind_error_unit, hb1, hb2, hb3, hb4, hb5, hb6, hb7,
      hb8, hb9, hb10, hb11]
  by_cases hb12 : ((¬c.eos_token_id = -1 ∨ ¬c.max_new_tokens = SIZE_MAX)
      ∨ ¬c.max_length = SIZE_MAX)
  case neg =>
    simp [bind_ok_unit, bind_error_unit, hb1, hb2, hb3, hb4, hb5, hb6, hb7,
      hb8, hb9, hb10, hb11, hb12]
  by_cases hbs : c.is_beam_search = true
  · by_cases hb13 : 0 < c.no_repeat_ngram_size
    · simp [bind_ok_unit, bind_error_unit, hb1, hb2, hb3, hb4, hb5, hb6, hb7,
        hb8, hb9, hb10, hb11, hb12, hbs, hb13]
    · simp [bind_ok_unit, bind_error_unit, hb1, hb2, hb3, hb4, hb5, hb6, hb7,
        hb8, hb9, hb10, hb11, hb12, hbs, hb13]
  · by_cases hb14 : (-2 ≤ c.frequency_penalty ∧ c.frequency_penalty ≤ 2)
    · by_cases hb15 : (-2 ≤ c.presence_penalty ∧ c.presence_penalty ≤ 2)
      · simp [bind_ok_unit, bind_error_unit, hb1, hb2, hb3, hb4, hb5, hb6,
          hb7, hb8, hb9, hb10, hb11, hb12, hbs, hb14, hb15]
      · simp [bind_ok_unit, bind_error_unit, hb1, hb2, hb3, hb4, hb5, hb6,
          hb7, hb8, hb9, hb10, hb11, hb12, hbs, hb14, hb15]
    · simp [bind_ok_unit, bind_error_unit, hb1, hb2, hb3, hb4, hb5, hb6, hb7,
        hb8, hb9, hb10, hb11, hb12, hbs, hb14]

/-- C9: `GenerationConfig::validate` raises exactly on invalid
configurations — in particular whenever `max_new_tokens == 0`,
`num_beams` is not divisible by `num_beam_groups`,
`num_return_sequences == 0`, or `min_new_tokens > max_new_tokens` — and
pipeline construction validates the configuration, yielding a usable
pipeline only when validation passes (so no generation step can run on an
invalid configuration). -/
theorem C9_validate (c : GenerationConfig) :
    (c.validate = Except.ok () ↔ c.isValidConfig = true) ∧
    (c.max_new_tokens = 0 → c.validate ≠ Except.ok ()) ∧
    (c.num_beams % c.num_beam_groups ≠ 0 → c.validate ≠ Except.ok ()) ∧
    (c.num_return_sequences = 0 → c.validate ≠ Except.ok ()) ∧
    (c.min_new_tokens > c.max_new_tokens → c.validate ≠ Except.ok ()) ∧
    (∀ r, pipelineConstruct c = Except.ok r ↔
      (c.validate = Except.ok () ∧ r = c)) := by
  refine ⟨validate_ok_iff c, ?_, ?_, ?_, ?_, ?_⟩
  · intro h0 hok
    rw [validate_ok_iff] at hok
    unfold GenerationConfig.isValidConfig at hok
    simp only [Bool.and_eq_true, decide_eq_true_eq, beq_iff_eq] at hok
    omega
  · intro h0 hok
    rw [validate_ok_iff] at hok
    unfold GenerationConfig.isValidConfig at hok
    simp only [Bool.and_eq_true, decide_eq_true_eq, beq_iff_eq] at hok
    omega
  · intro h0 hok
    rw [validate_ok_iff] at hok
    unfold GenerationConfig.isValidConfig at hok
    simp only [Bool.and_eq_true, decide_eq_true_eq, beq_iff_eq] at hok
    omega
  · intro h0 hok
    rw [validate_ok_iff] at hok
    unfold GenerationConfig.isValidConfig at hok
    simp only [Bool.and_eq_true, decide_eq_true_eq, beq_iff_eq] at hok
    omega
  · intro r
    unfold pipelineConstruct
    cases hv : c.validate with
    | ok u =>
      cases u
      rw [bind_ok_unit]
      constructor
      · intro hr
        have hrc : Except.ok c = Except.ok r := hr
        refine ⟨rfl, ?_⟩
        injection hrc with hc
        exact hc.symm
      · intro hr
        rw [hr.2]
        rfl
    | error e =>
      rw [bind_error_unit]
      constructor
      · intro hr
        exact absurd hr (by simp)
      · intro hr
        exact absurd hr.1 (by simp)

/-- Witness for C9: a concrete valid configuration passes `validate`; the
same configuration with `max_new_tokens = 0` fails it. -/
theorem C9_validate_witness :
    GenerationConfig.validate { max_new_tokens := 30, ignore_eos := true }
        = Except.ok () ∧
    GenerationConfig.validate { max_new_tokens := 0, ignore_eos := true }
        ≠ Except.ok () :=
  ⟨(C9_validate { max_new_tokens := 30, ignore_eos := true }).1.mpr
      (by decide),
   (C9_validate { max_new_tokens := 0, ignore_eos := true }).2.1 rfl⟩

/-! ## Claim C3 -/

/-- C3: in scenario S2 (vLLM regime, `B=4`, 6 blocks, groups A with an
11-token and B with an 8-token prompt, one generate step each), the next
schedule call partially preempts B to its prompt-only blocks: A's block
table becomes `[0,1,2,5]`, B's `[3,4]`, and only A is scheduled with 1
token; after A finishes and is freed, the next call resumes B with block
table `[3,4,0]` and schedules exactly 1 token (the recomputed last
token). -/
theorem C3_partial_preemption :
    s2Step3.1.ids = [0] ∧
    s2Step3.1.total = 1 ∧
    getBlockTable 0 s2Step3.2 = [0, 1, 2, 5] ∧
    getBlockTable 1 s2Step3.2 = [3, 4] ∧
    s2Step4.1.total = 1 ∧
    getBlockTable 1 s2Step4.2 = [3, 4, 0] := by
  decide

/-! ## Claim C4 -/

/-- C4: in scenario S3 (two 12-token prompts on 6 blocks of size 4), the
preempted group keeps the 2 still-valid blocks `[3,4]` of its prompt under
dynamic split-fuse and re-schedules only the remaining 4 prompt tokens on
re-admission; in the vLLM regime it retains no block table and its full
12-token prompt is re-scheduled. -/
theorem C4_preempted_prompt :
    getBlockTable 1 (s3Step2 true).2 = [3, 4] ∧
    hasBlockTable 1 (s3Step2 true).2 = true ∧
    (s3Step3 true).1.total = 4 ∧
    hasBlockTable 1 (s3Step2 false).2 = false ∧
    (s3Step3 false).1.total = 12 := by
  decide

/-! ## Claim C5 -/

/-- C5: scenario S1 (`B=4, num_kv_blocks=6, T=32, S=5`, vLLM regime, three
8-token prompts): the first call is a PROMPT step scheduling all three
groups with 24 tokens over all 6 blocks (2 per sequence); the second call
is a GENERATE step that fully preempts the most recently admitted group,
scheduling groups `[0, 1]` with 2 tokens and leaving no block table for
group 2. -/
theorem C5_general_scheduling :
    s1Step1.1.ids = [0, 1, 2] ∧
    s1Step1.1.total = 24 ∧
    s1Step1.1.is_prompt = true ∧
    s1Step1.2.freeQ = [] ∧
    s1Step1.1.tables.map (fun p => p.2.length) = [2, 2, 2] ∧
    s1Step2.1.ids = [0, 1] ∧
    s1Step2.1.total = 2 ∧
    s1Step2.1.is_prompt = false ∧
    hasBlockTable 2 s1Step2.2 = false := by
  decide

/-! ## Claim C6 -/

/-- C6: a schedule step preserves the invariant
`ceil(num_processed_tokens / B) == len(block_table)` for every live
sequence of every group; in particular, in the beam-search scenario the
two successive partial preemptions of the forked group leave it at 8
processed tokens with 2 blocks per sibling and then at 4 processed tokens
with 1 block per sibling, with the (decidable) invariant holding at every
observed step boundary. -/
theorem C6_length_invariant :
    (∀ st : SchedulerState, SeqLenInv st → SeqLenInv (scheduleStep st).2) ∧
    groupProcessed 1 beamStage4 = 8 ∧
    beamTableLens 1 beamStage4 = [2, 2, 2, 2, 2] ∧
    groupProcessed 1 beamStage5.2 = 4 ∧
    beamTableLens 1 beamStage5.2 = [1, 1, 1, 1, 1] ∧
    seqLenInvB beamStage3 = true ∧
    seqLenInvB beamStage4 = true ∧
    seqLenInvB beamStage5.2 = true ∧
    beamStage5.1.all (fun p => p.2) = true :=
  ⟨fun st h => scheduleStep_inv st h, by decide, by decide, by decide,
   by decide, by decide, by decide, by decide, by decide⟩

/-- Witness for C6: the invariant holds at the S1 initial state and is
carried through one schedule step by the preservation theorem. -/
theorem C6_length_invariant_witness :
    SeqLenInv (scheduleStep s1St0).2 :=
  C6_length_invariant.1 s1St0 (by decide)

/-! ## Claim C7 -/

/-- C7 counterexample: at chat iteration 1 of scenario S4 the history has
19 tokens and the scheduler restores a cached chain of 5 blocks covering
18 tokens, then schedules 9 tokens; the claim's formula
`len(history) + len(prompt) + 1 − matched_prefix_blocks·B`
evaluates to `19 + 8 + 1 − 5·4 = 8 ≠ 9` (and with any other block count it
is `28 − 4·m`, never 9). -/
theorem C7_counterexample :
    pcResult.1.get? 1 = some 9 ∧
    pcAfter1.2.2.1.length = 19 ∧
    pcMatch1.map (fun e => (e.toks.length, e.chain.length)) = some (18, 5) ∧
    (19 + 8 + 1 - 5 * 4 : Nat) ≠ 9 := by
  decide

/-- C7 (amended): with prefix caching enabled over 10 chat iterations of
the same prompt, iteration 0 schedules exactly the prompt length (8
tokens) and every iteration `k > 0` schedules exactly
`len(prompt) + 1 = 9` tokens: restoration re-attaches the cached block
chain covering every previously computed KV entry — `len(history) − 1`
tokens, including the trailing partially-filled block — leaving the new
prompt tokens plus the single token whose KV was never computed; every
generate step schedules 1 token, and the length invariant holds at each
generate boundary. -/
theorem C7_prefix_caching :
    pcResult.1 = [8, 9, 9, 9, 9, 9, 9, 9, 9, 9] ∧
    pcResult.2.1.all (fun l => l.all (fun p => p.1 == 1 && p.2)) = true ∧
    pcMatch1.map (fun e => e.toks.length) = some (pcAfter1.2.2.1.length - 1) := by
  decide

end OVGenAI
